import Mathlib

/-!
Shallow embedding of the snek game core (src/main.rs).

The Rust source is a single file defining a toroidal grid position type
`Pos<W, H>`, a `Direction` enum, a `Health` three-state machine, a `Snake`
(deque of positions, direction, growth flag), apple placement by rejection
sampling, and an input-resolution loop in `main`.  Machine integers (`u32`)
are modelled as `Nat`; the const generics `W`, `H` become explicit `Nat`
arguments; the `VecDeque` body becomes a `List` with the head of the list as
the front (head) of the deque; the RNG becomes an explicit list of pre-drawn
samples, so the unbounded rejection-sampling loop becomes a fuelled function
returning `Option` (`none` models non-termination / panic); timestamps
(`f64` seconds) become `ℚ`.
-/

namespace Snek

/-- Rust `Pos<W, H> { x: u32, y: u32 }`.  Bounds are carried as hypotheses. -/
structure Pos where
  x : Nat
  y : Nat
deriving DecidableEq, Repr

/-- Rust `Pos::wrapping_inc`: `if n == limit - 1 { 0 } else { n + 1 }`. -/
def wrapping_inc (n limit : Nat) : Nat :=
  if n = limit - 1 then 0 else n + 1

/-- Rust `Pos::wrapping_dec`: `if n == 0 { limit - 1 } else { n - 1 }`. -/
def wrapping_dec (n limit : Nat) : Nat :=
  if n = 0 then limit - 1 else n - 1

/-- Rust `Pos::up`: `y = wrapping_dec(y, H)`. -/
def Pos.up (p : Pos) (H : Nat) : Pos := { p with y := wrapping_dec p.y H }

/-- Rust `Pos::down`: `y = wrapping_inc(y, H)`. -/
def Pos.down (p : Pos) (H : Nat) : Pos := { p with y := wrapping_inc p.y H }

/-- Rust `Pos::left`: `x = wrapping_dec(x, W)`. -/
def Pos.left (p : Pos) (W : Nat) : Pos := { p with x := wrapping_dec p.x W }

/-- Rust `Pos::right`: `x = wrapping_inc(x, W)`. -/
def Pos.right (p : Pos) (W : Nat) : Pos := { p with x := wrapping_inc p.x W }

/-- Rust `enum Direction { None, Up, Down, Left, Right }`. -/
inductive Direction
  | none
  | up
  | down
  | left
  | right
deriving DecidableEq, Repr

/-- Rust `Direction::opposite`. -/
def Direction.opposite : Direction → Direction
  | .up => .down
  | .down => .up
  | .left => .right
  | .right => .left
  | .none => .none

/-- Rust `enum Health { Alive, Dying, Dead }`. -/
inductive Health
  | alive
  | dying
  | dead
deriving DecidableEq, Repr

/-- Rust `Snake<W, H>`.  The body deque is a list with the front (head of the
snake) first; the back of the deque is the last list element (the tail). -/
structure Snake where
  health : Health
  body : List Pos
  direction : Direction
  needs_to_grow : Bool
deriving DecidableEq, Repr

/-- Rust `Snake::new`: single segment at the grid centre, alive, direction
`None`, not growing. -/
def Snake.new (W H : Nat) : Snake :=
  { health := Health.alive
    body := [⟨W / 2, H / 2⟩]
    direction := Direction.none
    needs_to_grow := false }

/-- Rust `Snake::len`. -/
def Snake.len (s : Snake) : Nat := s.body.length

/-- Rust `Snake::head`: `*self.body.front().unwrap()`.  The `Option` models
the panic on an empty body. -/
def Snake.head (s : Snake) : Option Pos := s.body.head?

/-- Rust `Snake::will_collide`: scans `body.iter().skip(1).rev().skip(1)`
(every segment except the front/head and the back/tail) for equality with
the candidate. -/
def Snake.will_collide (s : Snake) (head : Pos) : Bool :=
  ((s.body.drop 1).reverse.drop 1).any (fun p => decide (head = p))

/-- Rust `Snake::contains`: membership scan over the full body. -/
def Snake.contains (s : Snake) (pos : Pos) : Bool :=
  decide (pos ∈ s.body)

/-- The head displacement performed at the top of `Snake::tick`
(`match self.direction { Up => head.up(), ... }`); `None` is handled by an
early return in `tick` itself, so it maps to the identity here. -/
def movePos (W H : Nat) (d : Direction) (p : Pos) : Pos :=
  match d with
  | .up => p.up H
  | .down => p.down H
  | .left => p.left W
  | .right => p.right W
  | .none => p

/-- The rejection-sampling loop `while snake.contains(apple) { apple = rng.gen }`
used by `Snake::tick` and `Game::new`.  The RNG is a list of pre-drawn sample
positions; `none` models the loop running out of samples (the Rust loop has no
bound and would keep drawing). -/
def resample (body : List Pos) : Pos → List Pos → Option Pos
  | apple, [] => if apple ∈ body then Option.none else some apple
  | apple, r :: rest => if apple ∈ body then resample body r rest else some apple

/-- Rust `Snake::tick(&mut self, apple, rng)`.  Returns the updated snake and
apple; `none` models a panic on an empty body (`head().unwrap()`) or RNG
exhaustion in the apple-resampling loop. -/
def Snake.tick (W H : Nat) (s : Snake) (apple : Pos) (rng : List Pos) :
    Option (Snake × Pos) :=
  if s.health = Health.dead then some (s, apple)
  else
    match s.body with
    | [] => Option.none
    | hd :: _ =>
      if s.direction = Direction.none then some (s, apple)
      else
        let head := movePos W H s.direction hd
        if s.will_collide head then
          some ({ s with
                  health := if s.health = Health.alive then Health.dying
                            else Health.dead }, apple)
        else
          let s1 : Snake := { s with health := Health.alive, body := head :: s.body }
          if s1.contains apple then
            match resample s1.body apple rng with
            | Option.none => Option.none
            | some apple2 =>
              let s2 : Snake := { s1 with needs_to_grow := true }
              let s3 : Snake :=
                if s2.health ≠ Health.dead ∧ s2.needs_to_grow = false
                then { s2 with body := s2.body.dropLast } else s2
              some ({ s3 with needs_to_grow := false }, apple2)
          else
            let s3 : Snake :=
              if s1.health ≠ Health.dead ∧ s1.needs_to_grow = false
              then { s1 with body := s1.body.dropLast } else s1
            some ({ s3 with needs_to_grow := false }, apple)

/-- Rust `Game<W, H>` (without the RNG, which is passed per step). -/
structure Game where
  snake : Snake
  apple : Pos
deriving DecidableEq, Repr

/-- Rust `Game::new`: fresh snake, apple initialised to the snake's head and
then rejection-sampled off the body. -/
def Game.new (W H : Nat) (rng : List Pos) : Option Game :=
  let snake := Snake.new W H
  match resample snake.body ⟨W / 2, H / 2⟩ rng with
  | Option.none => Option.none
  | some apple => some { snake := snake, apple := apple }

/-- Reachable game states: a fresh game, a game after one `tick`, or a game
whose snake direction was reassigned by the input resolver (the resolver
mutates only `snake.direction`). -/
inductive Game.Reachable (W H : Nat) : Game → Prop where
  | init (rng : List Pos) (g : Game) :
      Game.new W H rng = some g → Game.Reachable W H g
  | tick (g : Game) (rng : List Pos) (s' : Snake) (a' : Pos) :
      Game.Reachable W H g → Snake.tick W H g.snake g.apple rng = some (s', a') →
      Game.Reachable W H { snake := s', apple := a' }
  | setDir (g : Game) (d : Direction) :
      Game.Reachable W H g →
      Game.Reachable W H { snake := { g.snake with direction := d }, apple := g.apple }

/-- Keys that can enter the event queue (only arrow presses are pushed in the
Rust `main`; `other` stands for any non-directional key in the loop's
wildcard arm). -/
inductive Key
  | up
  | down
  | left
  | right
  | other
deriving DecidableEq, Repr

/-- Rust `Direction::try_from(KeyCode)`, as an `Option`. -/
def keyDir : Key → Option Direction
  | .up => some Direction.up
  | .down => some Direction.down
  | .left => some Direction.left
  | .right => some Direction.right
  | .other => Option.none

/-- `POLLING_RATE` (200 ms) in seconds, with `f64` modelled as `ℚ`. -/
def pollingRate : ℚ := 1 / 5

/-- The acceptance test of the input resolver:
`!(len > 1 && cur_dir == new_dir.opposite()) && cur_dir != new_dir`. -/
def acceptsDir (len : Nat) (cur new : Direction) : Bool :=
  !(decide (len > 1) && decide (cur = new.opposite)) && decide (cur ≠ new)

/-- The input-resolution loop of `main`: events are drained oldest-first (the
Rust deque is newest-at-front and popped from the back; here the list is
oldest-first).  `curDir` is the snapshot `cur_dir` taken once before the loop,
`head` is the frame's `game.snake.head()` snapshot, and the accumulator `d`
is the snake's mutable `direction` field.  Returns the final direction and
the events left in the queue. -/
def resolveLoop (now : ℚ) (curDir : Direction) (s : Snake) (head : Pos) :
    List (ℚ × Key) → Direction → Direction × List (ℚ × Key)
  | [], d => (d, [])
  | (tstamp, k) :: rest, d =>
    if now - tstamp > pollingRate * 3 then resolveLoop now curDir s head rest d
    else
      match keyDir k with
      | Option.none => resolveLoop now curDir s head rest d
      | some newDir =>
        if acceptsDir s.len curDir newDir then
          if s.will_collide head then resolveLoop now curDir s head rest newDir
          else (newDir, rest)
        else resolveLoop now curDir s head rest d

/-- An event the resolution loop skips without accepting: stale, not a
directional key, or failing the acceptance test against the snapshot
direction. -/
def rejectedEvent (now : ℚ) (curDir : Direction) (len : Nat) (e : ℚ × Key) : Bool :=
  decide (now - e.1 > pollingRate * 3) ||
    (match keyDir e.2 with
     | Option.none => true
     | some d => !(acceptsDir len curDir d))

end Snek

namespace Snek

theorem wrapping_dec_inc (n limit : Nat) (h1 : 1 ≤ limit) (h2 : n < limit) :
    wrapping_inc (wrapping_dec n limit) limit = n := by
  unfold wrapping_inc wrapping_dec
  split_ifs <;> omega

theorem wrapping_inc_dec (n limit : Nat) (h1 : 1 ≤ limit) (h2 : n < limit) :
    wrapping_dec (wrapping_inc n limit) limit = n := by
  unfold wrapping_inc wrapping_dec
  split_ifs <;> first | omega | contradiction

theorem wrapping_inc_lt (n limit : Nat) (h1 : 1 ≤ limit) (h2 : n < limit) :
    wrapping_inc n limit < limit := by
  unfold wrapping_inc
  split_ifs <;> omega

theorem wrapping_dec_lt (n limit : Nat) (h1 : 1 ≤ limit) (h2 : n < limit) :
    wrapping_dec n limit < limit := by
  unfold wrapping_dec
  split_ifs <;> omega

/-- C8: on any grid with `W, H ≥ 1`, each of the four moves followed by its
opposite returns an in-bounds position to its original value, and each single
move keeps both coordinates in bounds. -/
theorem pos_move_roundtrip_and_bounds (W H : Nat) (p : Pos)
    (hW : 1 ≤ W) (hH : 1 ≤ H) (hx : p.x < W) (hy : p.y < H) :
    ((p.up H).down H = p ∧ (p.down H).up H = p ∧
      (p.left W).right W = p ∧ (p.right W).left W = p) ∧
    (((p.up H).x < W ∧ (p.up H).y < H) ∧
      ((p.down H).x < W ∧ (p.down H).y < H) ∧
      ((p.left W).x < W ∧ (p.left W).y < H) ∧
      ((p.right W).x < W ∧ (p.right W).y < H)) := by
  obtain ⟨x, y⟩ := p
  simp only [Pos.up, Pos.down, Pos.left, Pos.right]
  refine ⟨⟨?_, ?_, ?_, ?_⟩, ⟨?_, ?_⟩, ⟨?_, ?_⟩, ⟨?_, ?_⟩, ⟨?_, ?_⟩⟩ <;>
    simp [wrapping_dec_inc, wrapping_inc_dec, wrapping_inc_lt, wrapping_dec_lt,
      hW, hH, hx, hy]

/-- Witness for C8 at `W = 20`, `H = 10`, `p = (10, 5)`. -/
theorem pos_move_roundtrip_and_bounds_witness :
    ((⟨10, 5⟩ : Pos).up 10).down 10 = ⟨10, 5⟩ :=
  (pos_move_roundtrip_and_bounds 20 10 ⟨10, 5⟩ (by decide) (by decide)
    (by decide) (by decide)).1.1

end Snek

namespace Snek

theorem will_collide_iff_mem (s : Snake) (c : Pos) :
    s.will_collide c = true ↔ c ∈ (s.body.drop 1).dropLast := by
  unfold Snake.will_collide
  rw [List.any_eq_true]
  constructor
  · rintro ⟨p, hp, hc⟩
    have hcp : c = p := of_decide_eq_true hc
    subst hcp
    rw [List.drop_one, List.tail_reverse, List.mem_reverse] at hp
    exact hp
  · intro h
    refine ⟨c, ?_, by simp⟩
    rw [List.drop_one, List.tail_reverse, List.mem_reverse]
    exact h

theorem will_collide_iff_index (s : Snake) (c : Pos) :
    s.will_collide c = true ↔
      ∃ i, 0 < i ∧ i + 1 < s.body.length ∧ s.body[i]? = some c := by
  rw [will_collide_iff_mem, List.mem_iff_getElem?]
  constructor
  · rintro ⟨j, hj⟩
    rw [List.dropLast_eq_take, List.getElem?_take] at hj
    by_cases hlt : j < (s.body.drop 1).length - 1
    · rw [if_pos hlt, List.getElem?_drop] at hj
      rw [List.length_drop] at hlt
      exact ⟨1 + j, by omega, by omega, hj⟩
    · rw [if_neg hlt] at hj
      exact absurd hj (by simp)
  · rintro ⟨i, h0, hlen, hget⟩
    refine ⟨i - 1, ?_⟩
    rw [List.dropLast_eq_take, List.getElem?_take, List.length_drop,
      if_pos (by omega), List.getElem?_drop]
    have : 1 + (i - 1) = i := by omega
    rw [this]
    exact hget

theorem will_collide_short (s : Snake) (c : Pos) (h : s.body.length ≤ 2) :
    s.will_collide c = false := by
  cases hcol : s.will_collide c
  · rfl
  · obtain ⟨i, h1, h2, _⟩ := (will_collide_iff_index s c).1 hcol
    omega

theorem will_collide_head_of_nodup (s : Snake) (hnd : s.body.Nodup)
    (hd : Pos) (hh : s.body.head? = some hd) : s.will_collide hd = false := by
  cases hcol : s.will_collide hd
  · rfl
  · obtain ⟨i, h1, h2, h3⟩ := (will_collide_iff_index s hd).1 hcol
    rw [List.head?_eq_getElem?] at hh
    have hi : i < s.body.length := by omega
    have := List.getElem?_inj hi hnd (h3.trans hh.symm)
    omega

theorem will_collide_last_of_nodup (s : Snake) (hnd : s.body.Nodup)
    (tl : Pos) (hh : s.body.getLast? = some tl) : s.will_collide tl = false := by
  cases hcol : s.will_collide tl
  · rfl
  · obtain ⟨i, h1, h2, h3⟩ := (will_collide_iff_index s tl).1 hcol
    rw [List.getLast?_eq_getElem?] at hh
    have hi : i < s.body.length := by omega
    have := List.getElem?_inj hi hnd (h3.trans hh.symm)
    omega

end Snek

namespace Snek

/-- C2 counterexample: a snake whose head cell also occurs as an interior
segment.  `will_collide` reports `true` for the snake's own current head
cell, contradicting the claim that it never does so for any snake. -/
theorem will_collide_head_cell_counterexample :
    (Snake.mk Health.alive [⟨1, 1⟩, ⟨2, 2⟩, ⟨1, 1⟩, ⟨3, 3⟩]
        Direction.none false).body.head? = some ⟨1, 1⟩ ∧
    (Snake.mk Health.alive [⟨1, 1⟩, ⟨2, 2⟩, ⟨1, 1⟩, ⟨3, 3⟩]
        Direction.none false).will_collide ⟨1, 1⟩ = true := by
  exact ⟨rfl, rfl⟩

/-- C2 (amended): `will_collide` returns true iff the candidate equals a body
segment at an index other than the first (head) and last (tail); for a body
of length at most 2 it is always false; and provided the body has no repeated
cells (as in every reachable state) it never reports true for the snake's own
current head or tail cell. -/
theorem will_collide_characterization (s : Snake) (c : Pos) :
    (s.will_collide c = true ↔
      ∃ i, 0 < i ∧ i + 1 < s.body.length ∧ s.body[i]? = some c) ∧
    (s.body.length ≤ 2 → s.will_collide c = false) ∧
    (s.body.Nodup →
      (∀ hd, s.body.head? = some hd → s.will_collide hd = false) ∧
      (∀ tl, s.body.getLast? = some tl → s.will_collide tl = false)) :=
  ⟨will_collide_iff_index s c,
   will_collide_short s c,
   fun hnd =>
    ⟨fun hd hh => will_collide_head_of_nodup s hnd hd hh,
     fun tl hh => will_collide_last_of_nodup s hnd tl hh⟩⟩

/-- Witness for C2's amended theorem on a concrete duplicate-free snake. -/
theorem will_collide_characterization_witness :
    (Snake.mk Health.alive [⟨1, 1⟩, ⟨2, 2⟩, ⟨3, 3⟩]
        Direction.none false).will_collide ⟨1, 1⟩ = false :=
  ((will_collide_characterization
      (Snake.mk Health.alive [⟨1, 1⟩, ⟨2, 2⟩, ⟨3, 3⟩] Direction.none false)
      ⟨1, 1⟩).2.2 (by decide)).1 ⟨1, 1⟩ rfl

end Snek

namespace Snek

theorem resample_not_mem (body : List Pos) :
    ∀ (a : Pos) (rng : List Pos) (a2 : Pos), resample body a rng = some a2 → a2 ∉ body := by
  intro a rng
  induction rng generalizing a with
  | nil =>
    intro a2 h
    by_cases hm : a ∈ body
    · simp [resample, hm] at h
    · simp [resample, hm] at h
      subst h
      exact hm
  | cons r rest ih =>
    intro a2 h
    by_cases hm : a ∈ body
    · simp only [resample, if_pos hm] at h
      exact ih r a2 h
    · simp only [resample, if_neg hm, Option.some.injEq] at h
      subst h
      exact hm

/-- C6: a self-colliding tick while Alive moves health to Dying and leaves the
body, direction, growth flag and apple unchanged; since the body and direction
did not move, the next tick collides again and reaches Dead; and once Dead,
every subsequent tick is a complete no-op on the snake and the apple. -/
theorem double_collision_reaches_dead (W H : Nat) (s : Snake) (apple : Pos)
    (rng rng2 : List Pos) (hd : Pos) (tl : List Pos) (hb : s.body = hd :: tl)
    (hh : s.health = Health.alive) (hdir : s.direction ≠ Direction.none)
    (hc : s.will_collide (movePos W H s.direction hd) = true) :
    Snake.tick W H s apple rng = some ({ s with health := Health.dying }, apple) ∧
    Snake.tick W H { s with health := Health.dying } apple rng2 =
      some ({ s with health := Health.dead }, apple) ∧
    (∀ apple2 rng3, Snake.tick W H { s with health := Health.dead } apple2 rng3 =
      some ({ s with health := Health.dead }, apple2)) := by
  have hc3 : movePos W H s.direction hd ∈ tl.dropLast := by
    simpa [Snake.will_collide, hb] using hc
  refine ⟨?_, ?_, fun apple2 rng3 => ?_⟩
  · unfold Snake.tick
    simp [Snake.will_collide, hb, hh, hc3, if_neg hdir]
  · unfold Snake.tick
    simp [Snake.will_collide, hb, hc3, if_neg hdir]
  · unfold Snake.tick
    simp

/-- Witness for C6: a concrete Alive snake about to bite its own interior. -/
theorem double_collision_reaches_dead_witness :
    Snake.tick 20 10
        (Snake.mk Health.alive [⟨5, 5⟩, ⟨6, 5⟩, ⟨6, 6⟩, ⟨5, 6⟩] Direction.right false)
        ⟨0, 0⟩ [] =
      some (Snake.mk Health.dying [⟨5, 5⟩, ⟨6, 5⟩, ⟨6, 6⟩, ⟨5, 6⟩] Direction.right false,
        ⟨0, 0⟩) :=
  (double_collision_reaches_dead 20 10
    (Snake.mk Health.alive [⟨5, 5⟩, ⟨6, 5⟩, ⟨6, 6⟩, ⟨5, 6⟩] Direction.right false)
    ⟨0, 0⟩ [] [] ⟨5, 5⟩ [⟨6, 5⟩, ⟨6, 6⟩, ⟨5, 6⟩] rfl rfl (by decide) (by decide)).1

/-- C4 counterexample: a Dying snake whose attempted move does not collide.
The next tick sets health to Alive, not Dead, refuting "the next tick moves
its health to Dead ... whether or not that tick's attempted move collides
again". -/
theorem dying_safe_tick_counterexample :
    Snake.tick 20 10 (Snake.mk Health.dying [⟨5, 5⟩] Direction.right false) ⟨0, 0⟩ [] =
      some (Snake.mk Health.alive [⟨6, 5⟩] Direction.right false, ⟨0, 0⟩) ∧
    Health.alive ≠ Health.dead := ⟨rfl, by decide⟩

/-- C4 (amended): a Dying snake with a non-None direction resolves the Dying
state on the next tick — to Dead if the attempted move self-collides, and back
to Alive otherwise; Dying never survives a completed tick unchanged. -/
theorem dying_tick_resolution (W H : Nat) (s : Snake) (apple : Pos) (rng : List Pos)
    (hd : Pos) (tl : List Pos) (hb : s.body = hd :: tl)
    (hh : s.health = Health.dying) (hdir : s.direction ≠ Direction.none) :
    (s.will_collide (movePos W H s.direction hd) = true →
      Snake.tick W H s apple rng = some ({ s with health := Health.dead }, apple)) ∧
    (s.will_collide (movePos W H s.direction hd) = false →
      ∀ s' a', Snake.tick W H s apple rng = some (s', a') → s'.health = Health.alive) := by
  constructor
  · intro hc
    have hc3 : movePos W H s.direction hd ∈ tl.dropLast := by
      simpa [Snake.will_collide, hb] using hc
    unfold Snake.tick
    simp [Snake.will_collide, hb, hh, hc3, if_neg hdir]
  · intro hc s' a' ht
    have hc3 : movePos W H s.direction hd ∉ tl.dropLast := by
      intro hmem
      have h2 := hc
      simp [Snake.will_collide, hb] at h2
      exact h2 _ hmem rfl
    unfold Snake.tick at ht
    simp [Snake.will_collide, hb, hh, hc3, if_neg hdir] at ht
    split at ht
    · split at ht
      · exact absurd ht (by simp)
      · simp only [Option.some.injEq, Prod.mk.injEq] at ht
        obtain ⟨h1, h2⟩ := ht
        subst h1
        rfl
    · simp only [Option.some.injEq, Prod.mk.injEq] at ht
      obtain ⟨h1, h2⟩ := ht
      subst h1
      split <;> rfl

/-- Witness for C4's amended theorem: a colliding Dying snake reaches Dead,
and a safely-moving Dying snake comes back Alive. -/
theorem dying_tick_resolution_witness :
    Snake.tick 20 10
        (Snake.mk Health.dying [⟨5, 5⟩, ⟨6, 5⟩, ⟨6, 6⟩, ⟨5, 6⟩] Direction.right false)
        ⟨0, 0⟩ [] =
      some (Snake.mk Health.dead [⟨5, 5⟩, ⟨6, 5⟩, ⟨6, 6⟩, ⟨5, 6⟩] Direction.right false,
        ⟨0, 0⟩) ∧
    (Snake.mk Health.alive [⟨6, 5⟩] Direction.right false).health = Health.alive :=
  ⟨(dying_tick_resolution 20 10
      (Snake.mk Health.dying [⟨5, 5⟩, ⟨6, 5⟩, ⟨6, 6⟩, ⟨5, 6⟩] Direction.right false)
      ⟨0, 0⟩ [] ⟨5, 5⟩ [⟨6, 5⟩, ⟨6, 6⟩, ⟨5, 6⟩] rfl rfl (by decide)).1 (by decide),
   (dying_tick_resolution 20 10
      (Snake.mk Health.dying [⟨5, 5⟩] Direction.right false)
      ⟨0, 0⟩ [] ⟨5, 5⟩ [] rfl rfl (by decide)).2 (by decide)
      (Snake.mk Health.alive [⟨6, 5⟩] Direction.right false) ⟨0, 0⟩ rfl⟩

/-- C1: on a tick whose move happens (not Dead, a real direction, no
collision) and eats the apple — the pre-tick head or the new head cell equals
the apple — the body length grows by exactly one and the resampled apple is
not on the post-tick body. -/
theorem tick_eat_grows_and_relocates_apple (W H : Nat) (s : Snake) (apple : Pos)
    (rng : List Pos) (hd : Pos) (tl : List Pos) (hb : s.body = hd :: tl)
    (hh : s.health ≠ Health.dead) (hdir : s.direction ≠ Direction.none)
    (hc : s.will_collide (movePos W H s.direction hd) = false)
    (happle : hd = apple ∨ movePos W H s.direction hd = apple)
    (s' : Snake) (a' : Pos) (ht : Snake.tick W H s apple rng = some (s', a')) :
    s'.body.length = s.body.length + 1 ∧ a' ∉ s'.body := by
  have hc3 : movePos W H s.direction hd ∉ tl.dropLast := by
    intro hmem
    have h2 := hc
    simp [Snake.will_collide, hb] at h2
    exact h2 _ hmem rfl
  have hmem : apple ∈ movePos W H s.direction hd :: hd :: tl := by
    rcases happle with h | h
    · rw [← h]; simp
    · rw [← h]; simp
  unfold Snake.tick at ht
  simp [Snake.will_collide, Snake.contains, hb, hc3, if_neg hh, if_neg hdir, hmem] at ht
  split at ht
  · exact absurd ht (by simp)
  · rename_i apple2 heq
    simp only [Option.some.injEq, Prod.mk.injEq] at ht
    obtain ⟨h1, h2⟩ := ht
    subst h1
    subst h2
    constructor
    · simp [hb]
    · exact resample_not_mem _ apple rng _ heq

/-- Witness for C1: a length-1 snake moving right onto the apple grows to
length 2 and the apple is resampled off the body. -/
theorem tick_eat_grows_and_relocates_apple_witness :
    (Snake.mk Health.alive [⟨11, 5⟩, ⟨10, 5⟩] Direction.right false).body.length =
      (Snake.mk Health.alive [⟨10, 5⟩] Direction.right false).body.length + 1 ∧
    (⟨0, 0⟩ : Pos) ∉ (Snake.mk Health.alive [⟨11, 5⟩, ⟨10, 5⟩] Direction.right false).body :=
  tick_eat_grows_and_relocates_apple 20 10
    (Snake.mk Health.alive [⟨10, 5⟩] Direction.right false) ⟨11, 5⟩ [⟨0, 0⟩]
    ⟨10, 5⟩ [] rfl (by decide) (by decide) (by decide) (Or.inr (by decide))
    (Snake.mk Health.alive [⟨11, 5⟩, ⟨10, 5⟩] Direction.right false) ⟨0, 0⟩ rfl

end Snek

namespace Snek

theorem tick_cases (W H : Nat) (s : Snake) (apple : Pos) (rng : List Pos)
    (s' : Snake) (a' : Pos) (ht : Snake.tick W H s apple rng = some (s', a')) :
    (s'.body = s.body ∧ a' = apple) ∨
    (∃ hd tl, s.body = hd :: tl ∧
      ((s'.body = movePos W H s.direction hd :: s.body ∧
          resample (movePos W H s.direction hd :: s.body) apple rng = some a') ∨
       ((s'.body = movePos W H s.direction hd :: s.body ∨
           s'.body = (movePos W H s.direction hd :: s.body).dropLast) ∧
         a' = apple ∧ apple ∉ movePos W H s.direction hd :: s.body))) := by
  unfold Snake.tick at ht
  by_cases h1 : s.health = Health.dead
  · rw [if_pos h1] at ht
    simp only [Option.some.injEq, Prod.mk.injEq] at ht
    obtain ⟨e1, e2⟩ := ht
    subst e1
    subst e2
    exact Or.inl ⟨rfl, rfl⟩
  · rw [if_neg h1] at ht
    rcases hbody : s.body with _ | ⟨hd, tl⟩
    · rw [hbody] at ht
      exact absurd ht (by simp)
    · by_cases h2 : s.direction = Direction.none
      · simp only [hbody, if_pos h2, Option.some.injEq, Prod.mk.injEq] at ht
        obtain ⟨e1, e2⟩ := ht
        subst e1
        subst e2
        exact Or.inl ⟨hbody, rfl⟩
      · by_cases h3 : movePos W H s.direction hd ∈ tl.dropLast
        · simp only [Snake.will_collide, hbody, if_neg h2] at ht
          simp [h3] at ht
          obtain ⟨e1, e2⟩ := ht
          subst e1
          subst e2
          exact Or.inl ⟨rfl, rfl⟩
        · by_cases h4 : apple ∈ movePos W H s.direction hd :: hd :: tl
          · simp only [Snake.will_collide, Snake.contains, hbody, if_neg h2] at ht
            simp [h3, h4] at ht
            split at ht
            · exact absurd ht (by simp)
            · rename_i apple2 heq
              simp only [Option.some.injEq, Prod.mk.injEq] at ht
              obtain ⟨e1, e2⟩ := ht
              subst e1
              subst e2
              exact Or.inr ⟨hd, tl, rfl, Or.inl ⟨rfl, heq⟩⟩
          · by_cases h5 : s.needs_to_grow = false
            · simp only [Snake.will_collide, Snake.contains, hbody, if_neg h2] at ht
              simp [h3, h4, h5] at ht
              obtain ⟨e1, e2⟩ := ht
              subst e1
              subst e2
              exact Or.inr ⟨hd, tl, rfl, Or.inr ⟨Or.inr rfl, rfl, h4⟩⟩
            · simp only [Snake.will_collide, Snake.contains, hbody, if_neg h2] at ht
              simp [h3, h4, h5] at ht
              obtain ⟨e1, e2⟩ := ht
              subst e1
              subst e2
              exact Or.inr ⟨hd, tl, rfl, Or.inr ⟨Or.inl rfl, rfl, h4⟩⟩

end Snek

namespace Snek

theorem reachable_apple_off (W H : Nat) (g : Game) (hr : Game.Reachable W H g) :
    g.apple ∉ g.snake.body := by
  induction hr with
  | init rng g0 hinit =>
    simp only [Game.new] at hinit
    split at hinit
    · exact absurd hinit (by simp)
    · rename_i apple heq
      simp only [Option.some.injEq] at hinit
      subst hinit
      exact resample_not_mem _ _ _ _ heq
  | tick g0 rng s' a' hr ht ih =>
    rcases tick_cases W H g0.snake g0.apple rng s' a' ht with
      ⟨hb, ha⟩ | ⟨hd, tl, hb, hcase⟩
    · show a' ∉ s'.body
      rw [hb, ha]
      exact ih
    · rcases hcase with ⟨hb2, hres⟩ | ⟨hb2, ha, hnot⟩
      · show a' ∉ s'.body
        rw [hb2]
        exact resample_not_mem _ _ _ _ hres
      · rcases hb2 with hb2 | hb2
        · show a' ∉ s'.body
          rw [hb2, ha]
          exact hnot
        · show a' ∉ s'.body
          rw [hb2, ha]
          intro hmem
          exact hnot ((List.dropLast_sublist _).subset hmem)
  | setDir g0 d hr ih =>
    exact ih

theorem reachable_body_ne (W H : Nat) (g : Game) (hr : Game.Reachable W H g) :
    g.snake.body ≠ [] := by
  induction hr with
  | init rng g0 hinit =>
    simp only [Game.new] at hinit
    split at hinit
    · exact absurd hinit (by simp)
    · rename_i apple heq
      simp only [Option.some.injEq] at hinit
      subst hinit
      simp [Snake.new]
  | tick g0 rng s' a' hr ht ih =>
    rcases tick_cases W H g0.snake g0.apple rng s' a' ht with
      ⟨hb, _⟩ | ⟨hd, tl, hb, hcase⟩
    · show s'.body ≠ []
      rw [hb]
      exact ih
    · rcases hcase with ⟨hb2, _⟩ | ⟨hb2 | hb2, _, _⟩
      · show s'.body ≠ []
        rw [hb2]
        simp
      · show s'.body ≠ []
        rw [hb2]
        simp
      · show s'.body ≠ []
        rw [hb2, hb]
        simp
  | setDir g0 d hr ih =>
    exact ih

/-- C7: in every reachable game state the apple is not on the snake body —
established by the rejection-sampling loop at game creation, re-established
by the resampling loop of an apple-eating tick, and preserved untouched by
every other tick and by direction changes. -/
theorem apple_never_on_body (W H : Nat) (g : Game) (hr : Game.Reachable W H g) :
    g.apple ∉ g.snake.body :=
  reachable_apple_off W H g hr

/-- Witness for C7 at a concrete freshly created 20×10 game. -/
theorem apple_never_on_body_witness :
    (Game.mk (Snake.new 20 10) ⟨0, 0⟩).apple ∉ (Game.mk (Snake.new 20 10) ⟨0, 0⟩).snake.body :=
  apple_never_on_body 20 10 (Game.mk (Snake.new 20 10) ⟨0, 0⟩)
    (Game.Reachable.init [⟨0, 0⟩] (Game.mk (Snake.new 20 10) ⟨0, 0⟩) rfl)

/-- C9: in every reachable game state the snake body is nonempty, so the
`head()` unwrap (modelled by `Snake.head` returning an `Option`) always
succeeds and returns the front position. -/
theorem body_never_empty (W H : Nat) (g : Game) (hr : Game.Reachable W H g) :
    g.snake.body ≠ [] ∧ ∃ p, g.snake.head = some p := by
  have hne := reachable_body_ne W H g hr
  refine ⟨hne, ?_⟩
  unfold Snake.head
  rcases hbody : g.snake.body with _ | ⟨hd, tl⟩
  · exact absurd hbody hne
  · exact ⟨hd, by simp⟩

/-- Witness for C9 at a concrete freshly created 20×10 game. -/
theorem body_never_empty_witness :
    (Game.mk (Snake.new 20 10) ⟨0, 0⟩).snake.body ≠ [] ∧
      ∃ p, (Game.mk (Snake.new 20 10) ⟨0, 0⟩).snake.head = some p :=
  body_never_empty 20 10 (Game.mk (Snake.new 20 10) ⟨0, 0⟩)
    (Game.Reachable.init [⟨0, 0⟩] (Game.mk (Snake.new 20 10) ⟨0, 0⟩) rfl)

end Snek

namespace Snek

theorem resolveLoop_skip (now : ℚ) (curDir : Direction) (s : Snake) (head : Pos)
    (t : ℚ) (k : Key) (rest : List (ℚ × Key)) (d : Direction)
    (hrej : rejectedEvent now curDir s.len (t, k) = true) :
    resolveLoop now curDir s head ((t, k) :: rest) d =
      resolveLoop now curDir s head rest d := by
  conv_lhs => rw [resolveLoop]
  by_cases hst : now - t > pollingRate * 3
  · rw [if_pos hst]
  · rw [if_neg hst]
    unfold rejectedEvent at hrej
    simp only [decide_eq_false hst, Bool.false_or] at hrej
    cases hk : keyDir k with
    | none => simp only [hk]
    | some d2 =>
      simp only [hk] at hrej ⊢
      have hacc : acceptsDir s.len curDir d2 = false := by simpa using hrej
      simp [hacc]

/-- C5: in the input resolver's acceptance test, a candidate direction equal
to the exact opposite of the snake's current (non-None) direction is accepted
when the body length is 1 and rejected at any length greater than 1. -/
theorem reverse_acceptance_length (cur : Direction) (hcur : cur ≠ Direction.none) :
    acceptsDir 1 cur cur.opposite = true ∧
    ∀ n, 1 < n → acceptsDir n cur cur.opposite = false := by
  constructor
  · cases cur
    · exact absurd rfl hcur
    all_goals decide
  · intro n hn
    have hb : decide (n > 1) = true := decide_eq_true hn
    cases cur
    · exact absurd rfl hcur
    all_goals simp [acceptsDir, Direction.opposite, hb]

/-- Witness for C5 with current direction Up: its reverse Down is accepted at
length 1 and rejected at length 2. -/
theorem reverse_acceptance_length_witness :
    acceptsDir 1 Direction.up Direction.up.opposite = true ∧
    acceptsDir 2 Direction.up Direction.up.opposite = false :=
  ⟨(reverse_acceptance_length Direction.up (by decide)).1,
   (reverse_acceptance_length Direction.up (by decide)).2 2 (by decide)⟩

/-- C3: in one resolution pass over the buffer (oldest-first) with the game's
duplicate-free snake, whose actual head is the frame's `head` snapshot, the
first non-stale directional key that passes the compatibility test against
the snapshot direction is recorded and scanning stops at that key — whether
or not moving that way would self-collide — so no later queued key is
accepted in the same pass and the first compatible key's direction wins. -/
theorem resolver_first_compatible_wins (now : ℚ) (curDir : Direction) (s : Snake)
    (hd : Pos) (tl : List Pos) (hb : s.body = hd :: tl) (hnd : s.body.Nodup)
    (pre : List (ℚ × Key)) (tstamp : ℚ) (k : Key) (post : List (ℚ × Key))
    (d : Direction)
    (hk : keyDir k = some d)
    (hacc : rejectedEvent now curDir s.len (tstamp, k) = false)
    (hpre : ∀ e ∈ pre, rejectedEvent now curDir s.len e = true) :
    resolveLoop now curDir s hd (pre ++ (tstamp, k) :: post) curDir = (d, post) := by
  have hwc : s.will_collide hd = false :=
    will_collide_head_of_nodup s hnd hd (by rw [hb]; rfl)
  have hstale : ¬(now - tstamp > pollingRate * 3) := by
    intro hcon
    unfold rejectedEvent at hacc
    simp [decide_eq_true hcon] at hacc
  have haccept : acceptsDir s.len curDir d = true := by
    unfold rejectedEvent at hacc
    simp only [decide_eq_false hstale, Bool.false_or, hk] at hacc
    simpa using hacc
  revert hpre
  induction pre with
  | nil =>
    intro _
    simp only [List.nil_append]
    conv_lhs => rw [resolveLoop]
    rw [if_neg hstale]
    simp [hk, haccept, hwc]
  | cons e pre ih =>
    intro hpre
    obtain ⟨t2, k2⟩ := e
    rw [List.cons_append,
      resolveLoop_skip now curDir s hd t2 k2 _ curDir (hpre _ (by simp))]
    exact ih (fun e2 he2 => hpre e2 (by simp [he2]))

/-- Witness for C3: with no pending direction, the queue
other-key-then-Up-then-Down resolves to Up and leaves the Down event queued. -/
theorem resolver_first_compatible_wins_witness :
    resolveLoop 0 Direction.none (Snake.mk Health.alive [⟨10, 5⟩] Direction.none false)
        ⟨10, 5⟩ [(0, Key.other), (0, Key.up), (0, Key.down)] Direction.none =
      (Direction.up, [(0, Key.down)]) :=
  resolver_first_compatible_wins 0 Direction.none
    (Snake.mk Health.alive [⟨10, 5⟩] Direction.none false) ⟨10, 5⟩ [] rfl (by decide)
    [(0, Key.other)] 0 Key.up [(0, Key.down)] Direction.up rfl
    (by
      unfold rejectedEvent
      rw [decide_eq_false (show ¬((0 : ℚ) - 0 > pollingRate * 3) by
        rw [show pollingRate = 1 / 5 from rfl]
        norm_num)]
      rfl)
    (by
      intro e he
      simp only [List.mem_singleton] at he
      subst he
      unfold rejectedEvent
      simp [keyDir])

/-- C10: every buffered key is tested against the direction snapshot taken
once before the pass; recording an earlier candidate does not change the
comparison basis for later candidates, so a later key that is the opposite
of an earlier recorded candidate — but not of the pre-pass direction — still
passes the compatibility test and is recorded. -/
theorem resolver_snapshot_comparison (now : ℚ) (curDir : Direction) (s : Snake)
    (head : Pos) (t1 t2 : ℚ) (k1 k2 : Key) (d1 d2 : Direction)
    (h1 : keyDir k1 = some d1) (h2 : keyDir k2 = some d2)
    (hf1 : ¬(now - t1 > pollingRate * 3)) (hf2 : ¬(now - t2 > pollingRate * 3))
    (ha1 : acceptsDir s.len curDir d1 = true)
    (ha2 : acceptsDir s.len curDir d2 = true)
    (hop : d2 = d1.opposite)
    (hcol : s.will_collide head = true) :
    resolveLoop now curDir s head [(t1, k1), (t2, k2)] curDir = (d2, []) := by
  conv_lhs => rw [resolveLoop]
  rw [if_neg hf1]
  simp only [h1, ha1, hcol]
  conv_lhs => rw [resolveLoop]
  rw [if_neg hf2]
  simp only [h2, ha2, hcol]
  simp
  rw [resolveLoop]

/-- Witness for C10: current direction Right, colliding head snapshot (a
duplicated body, so scanning continues past the first accepted key), queue
Up-then-Down: Up is recorded, then Down — the opposite of the just-recorded
Up but not of the snapshot Right — is also accepted and wins. -/
theorem resolver_snapshot_comparison_witness :
    resolveLoop 0 Direction.right
        (Snake.mk Health.alive [⟨1, 1⟩, ⟨2, 2⟩, ⟨1, 1⟩, ⟨3, 3⟩] Direction.right false)
        ⟨1, 1⟩ [(0, Key.up), (0, Key.down)] Direction.right =
      (Direction.down, []) :=
  resolver_snapshot_comparison 0 Direction.right
    (Snake.mk Health.alive [⟨1, 1⟩, ⟨2, 2⟩, ⟨1, 1⟩, ⟨3, 3⟩] Direction.right false)
    ⟨1, 1⟩ 0 0 Key.up Key.down Direction.up Direction.down rfl rfl
    (by rw [show pollingRate = 1 / 5 from rfl]; norm_num)
    (by rw [show pollingRate = 1 / 5 from rfl]; norm_num)
    (by decide) (by decide) rfl (by decide)

end Snek
